import Mathlib

/-!
Shallow embedding of the Claude usage monitor service
(src/services/claudeUsageMonitorService.js) and verification of its
specified behaviour.

Modelling conventions:
* Timestamps are milliseconds since the epoch, as produced by the JS
  Date.getTime / Date.now calls, modelled as Int.
* A usage window's resets_at field is an ISO timestamp string in the
  source; it is modelled here as the parsed millisecond value
  (Option Int), absent (null/undefined/missing) being none.  A present
  ISO string is always truthy in JS, so the source's truthiness test
  !fiveHourData.resets_at corresponds exactly to Option.isNone.
* utilization is a JS number in [0,1]; it is modelled as Option Rat,
  the source's fallback (utilization || 0) becoming Option.getD 0.
* External collaborators (redis account enumeration, usage fetcher,
  token service, HTTP request primitive) are passed in as oracle
  values/functions, since the service only observes their results.
* Effects that the claims talk about (network calls, delays, log
  lines, persistence) are recorded as explicit event/trace values.
-/

namespace ClaudeUsageMonitor

/-- Constructor constants of ClaudeUsageMonitorService (all in ms or
minutes, as in the source). BASE_INTERVAL = 20 minutes in ms. -/
def BASE_INTERVAL : Int := 20 * 60 * 1000

/-- Trigger 5 minutes after a window reset (source: AFTER_RESET_MINUTES). -/
def AFTER_RESET_MINUTES : Int := 5

/-- Threshold in minutes for logging an impending 5h-window reset
(source: RESET_THRESHOLD_MINUTES). -/
def RESET_THRESHOLD_MINUTES : Int := 10

/-- A usage window as returned by the provider: an optional reset
timestamp (ms) and an optional utilization fraction. -/
structure UsageWindow where
  resets_at : Option Int
  utilization : Option Rat
deriving Repr, DecidableEq

/-- A usage snapshot / fetch result body: the 5-hour and 7-day windows,
each possibly absent. -/
structure UsageData where
  five_hour : Option UsageWindow
  seven_day : Option UsageWindow
deriving Repr, DecidableEq

/-- An account record, as read from the account store.  isActive and
scopes are strings, exactly as stored in redis (the source compares
isActive !== 'true' and splits scopes on single spaces). -/
structure Account where
  id : Nat
  name : String
  isActive : String
  scopes : String
deriving Repr, DecidableEq

/-- JS String.prototype.split(' ') on a character list: split at every
single space, keeping empty segments. -/
def splitSp : List Char → List Char → List (List Char)
  | [], acc => [acc.reverse]
  | c :: cs, acc =>
    if c = ' ' then acc.reverse :: splitSp cs [] else splitSp cs (c :: acc)

/-- The scope list of an account, mirroring the source line
const scopes = account.scopes && account.scopes.trim() ? account.scopes.split(' ') : [].
The JS condition is falsy exactly when the scopes string is empty or
all-whitespace. -/
def accountScopes (a : Account) : List (List Char) :=
  if a.scopes.data.all (fun c => c.isWhitespace) then []
  else splitSp a.scopes.data []

/-- Whether an account counts as an OAuth account: its scopes include
both user:profile and user:inference. -/
def isOAuthAccount (a : Account) : Bool :=
  (accountScopes a).contains "user:profile".data
    && (accountScopes a).contains "user:inference".data

/-- JS Math.round: round half toward positive infinity. -/
def jsRound (x : Rat) : Int := Rat.floor (x + 1 / 2)

/-- Outcome of checkAndResetFiveHourWindow: the boolean it returns, the
number of initialization probes it attempted, and the content of the
impending-reset log line when one was emitted
(remaining minutes, rounded remaining-quota percent). -/
structure CheckOutcome where
  result : Bool
  probeAttempts : Nat
  remainingLog : Option (Int × Int)
deriving Repr, DecidableEq

/-- checkAndResetFiveHourWindow(account, fiveHourData).  probeResult is
the boolean returned by the (already caught, never-throwing) probe
triggerFiveHourInitialization for this account.  Math.floor of the
millisecond difference over 60000 is floor division (Int.fdiv). -/
def checkAndResetFiveHourWindow (now : Int) (probeResult : Bool)
    (w : UsageWindow) : CheckOutcome :=
  match w.resets_at with
  | none =>
    { result := probeResult, probeAttempts := 1, remainingLog := none }
  | some resetsAt =>
    let remainingMinutes := Int.fdiv (resetsAt - now) 60000
    if remainingMinutes ≤ RESET_THRESHOLD_MINUTES then
      let utilization := w.utilization.getD 0
      let remainingQuota := jsRound ((1 - utilization) * 100)
      { result := false, probeAttempts := 0,
        remainingLog := some (remainingMinutes, remainingQuota) }
    else
      { result := false, probeAttempts := 0, remainingLog := none }

/-- A transient schedule entry collected by calculateNextInterval
(resetTime already holds the trigger time, as in the source). -/
structure ScheduleEntry where
  accountName : String
  resetTime : Int
  windowType : String
deriving Repr, DecidableEq

/-- Candidate entries contributed by one optional window of one account:
present resets_at gives triggerTime = resets_at + 5 minutes, kept only
when still in the future. -/
def windowCandidates (now : Int) (name : String) (wt : String) :
    Option UsageWindow → List ScheduleEntry
  | none => []
  | some w =>
    match w.resets_at with
    | none => []
    | some r =>
      let triggerTime := r + AFTER_RESET_MINUTES * 60 * 1000
      if triggerTime > now then
        [{ accountName := name, resetTime := triggerTime, windowType := wt }]
      else []

/-- Candidate entries contributed by one account: inactive accounts and
accounts without a persisted snapshot contribute nothing; otherwise the
5h window's candidates followed by the 7d window's, in source order. -/
def accountCandidates (now : Int) (snap : Nat → Option UsageData)
    (a : Account) : List ScheduleEntry :=
  if a.isActive ≠ "true" then []
  else
    match snap a.id with
    | none => []
    | some s =>
      windowCandidates now a.name "5h" s.five_hour
        ++ windowCandidates now a.name "7d" s.seven_day

/-- The resetTimes list built by the loop in calculateNextInterval. -/
def collectResetTimes (now : Int) (snap : Nat → Option UsageData) :
    List Account → List ScheduleEntry
  | [] => []
  | a :: rest => accountCandidates now snap a ++ collectResetTimes now snap rest

/-- The source sorts the candidates ascending by resetTime (stable sort)
and takes element 0, i.e. the first entry attaining the minimum
resetTime; this fold computes exactly that entry. -/
def minByResetTime (e : ScheduleEntry) (es : List ScheduleEntry) : ScheduleEntry :=
  es.foldl (fun acc x => if x.resetTime < acc.resetTime then x else acc) e

/-- calculateNextInterval().  enum is the result of the
redis.getAllClaudeAccounts call (an exception lands in the catch, which
returns BASE_INTERVAL); snap is the getClaudeUsageSnapshot collaborator. -/
def calculateNextInterval (now : Int) (snap : Nat → Option UsageData)
    (enum : Except String (List Account)) : Int :=
  match enum with
  | .error _ => BASE_INTERVAL
  | .ok accounts =>
    match collectResetTimes now snap accounts with
    | [] => BASE_INTERVAL
    | e :: es =>
      let nearest := minByResetTime e es
      let interval := nearest.resetTime - now
      if interval < BASE_INTERVAL then max interval 60000 else BASE_INTERVAL

/-- Rat.floor agrees with the Int.floor of the FloorRing instance
(both are num / den); lets norm_num evaluate jsRound on literals. -/
lemma ratFloor_eq_floor (q : Rat) : Rat.floor q = ⌊q⌋ :=
  (Rat.floor_def' q).trans Rat.floor_def.symm

/-- Result of the probe triggerFiveHourInitialization: oracles for the
collaborators it consults. accessToken is getValidAccessToken's result;
response is the outcome of the relay request (.error = the request
threw); bodyParses records whether JSON.parse(response.body) succeeds;
refetch is the fetchOAuthUsage result after the settle delay. -/
structure ProbeEnv where
  accessToken : Option String
  response : Except String (Nat × String)
  bodyParses : Bool
  refetch : Option UsageData
deriving Repr

/-- Observable steps taken by one probe run, in order. -/
inductive ProbeEvent
  | networkRequest
  | settleDelay (ms : Nat)
  | refetchUsage
  | persistSnapshot
  | logTruncatedBody (s : String)
  | logCaughtError
deriving Repr, DecidableEq

/-- The probe's returned boolean together with its event trace. -/
structure ProbeOutcome where
  result : Bool
  events : List ProbeEvent
deriving Repr, DecidableEq

/-- triggerFiveHourInitialization(account).  Every throw inside the try
block lands in the catch, which logs and returns false; a missing token
returns false before the network request is made; a 200 response leads
(after JSON.parse of the body succeeds) to the 2-second settle delay, a
usage re-fetch, and success exactly when the re-fetched 5h window has a
resets_at, in which case the refreshed snapshot is persisted; a non-200
response logs the body truncated to 200 characters and returns false. -/
def triggerFiveHourInitialization (env : ProbeEnv) : ProbeOutcome :=
  match env.accessToken with
  | none => { result := false, events := [] }
  | some _ =>
    match env.response with
    | .error _ => { result := false, events := [.networkRequest, .logCaughtError] }
    | .ok (statusCode, body) =>
      if statusCode = 200 then
        if env.bodyParses then
          match env.refetch with
          | some newUsage =>
            match newUsage.five_hour with
            | some w =>
              match w.resets_at with
              | some _ =>
                { result := true,
                  events := [.networkRequest, .settleDelay 2000, .refetchUsage,
                             .persistSnapshot] }
              | none =>
                { result := false,
                  events := [.networkRequest, .settleDelay 2000, .refetchUsage] }
            | none =>
              { result := false,
                events := [.networkRequest, .settleDelay 2000, .refetchUsage] }
          | none =>
            { result := false,
              events := [.networkRequest, .settleDelay 2000, .refetchUsage] }
        else
          { result := false, events := [.networkRequest, .logCaughtError] }
      else
        { result := false,
          events := [.networkRequest, .logTruncatedBody (body.take 200)] }

/-- Result of the fetchOAuthUsage collaborator for one account: data,
a null/undefined result, or a thrown exception. -/
inductive FetchResult
  | ok (data : UsageData)
  | nullData
  | err
deriving Repr, DecidableEq

/-- The four counters accumulated by the update-pass loop, named as in
the source. -/
structure Counts where
  successCount : Nat
  skipCount : Nat
  initCount : Nat
  failureCount : Nat
deriving Repr, DecidableEq

/-- How the loop body ended for one account. -/
inductive AccountOutcome
  | skippedInactive
  | skippedNotOAuth
  | success
  | failed
deriving Repr, DecidableEq

/-- One observable item of the update-pass trace: an account's loop
iteration, or the fixed inter-account delay. -/
inductive TraceItem
  | account (id : Nat) (o : AccountOutcome)
  | delay (ms : Nat)
deriving Repr, DecidableEq

/-- One iteration of the for-loop of updateAllAccountsUsage.  A skipped
account hits a continue statement, bypassing the 1-second delay; a
fetched account (success or failure) always reaches it. -/
def stepAccount (now : Int) (fetch : Account → FetchResult)
    (probe : Account → Bool) (c : Counts) (a : Account) :
    Counts × List TraceItem :=
  if a.isActive ≠ "true" then
    ({ c with skipCount := c.skipCount + 1 }, [.account a.id .skippedInactive])
  else if ¬ isOAuthAccount a then
    ({ c with skipCount := c.skipCount + 1 }, [.account a.id .skippedNotOAuth])
  else
    match fetch a with
    | .ok d =>
      let needsInit :=
        match d.five_hour with
        | some w => (checkAndResetFiveHourWindow now (probe a) w).result
        | none => false
      ({ c with successCount := c.successCount + 1,
                initCount := c.initCount + (if needsInit then 1 else 0) },
       [.account a.id .success, .delay 1000])
    | .nullData =>
      ({ c with failureCount := c.failureCount + 1 },
       [.account a.id .failed, .delay 1000])
    | .err =>
      ({ c with failureCount := c.failureCount + 1 },
       [.account a.id .failed, .delay 1000])

/-- The whole for-loop of updateAllAccountsUsage. -/
def runPassLoop (now : Int) (fetch : Account → FetchResult)
    (probe : Account → Bool) : List Account → Counts → Counts × List TraceItem
  | [], c => (c, [])
  | a :: rest, c =>
    let step := stepAccount now fetch probe c a
    let restResult := runPassLoop now fetch probe rest step.1
    (restResult.1, step.2 ++ restResult.2)

/-- The aggregate counts reported in the completion log line. -/
structure AggregateCounts where
  success : Nat
  skipped : Nat
  initialized : Nat
  failed : Nat
  total : Nat
deriving Repr, DecidableEq

/-- Full result of one call to updateAllAccountsUsage.  ret is the JS
return value of the async function (it has no return statement, so it
always resolves to undefined, i.e. none); completionLog is the content
of the final summary log line; errorLogged records whether the catch
block ran (it absorbs an account-enumeration failure and does not
rethrow). -/
structure PassResult where
  ret : Option AggregateCounts
  completionLog : Option AggregateCounts
  errorLogged : Bool
  trace : List TraceItem
deriving Repr, DecidableEq

/-- updateAllAccountsUsage(). enum is the redis.getAllClaudeAccounts
result; fetch and probe are the per-account collaborator oracles. -/
def updateAllAccountsUsage (now : Int) (fetch : Account → FetchResult)
    (probe : Account → Bool) (enum : Except String (List Account)) :
    PassResult :=
  match enum with
  | .error _ =>
    { ret := none, completionLog := none, errorLogged := true, trace := [] }
  | .ok accounts =>
    let r := runPassLoop now fetch probe accounts ⟨0, 0, 0, 0⟩
    { ret := none,
      completionLog := some
        { success := r.1.successCount, skipped := r.1.skipCount,
          initialized := r.1.initCount, failed := r.1.failureCount,
          total := accounts.length },
      errorLogged := false,
      trace := r.2 }

/-- The scheduler's service state: the run flag and whether a scheduling
timer is currently armed (monitorTimeout holds a pending timeout). -/
structure ServiceState where
  isRunning : Bool
  monitorTimeout : Option Unit
deriving Repr, DecidableEq

/-- The state a fresh ClaudeUsageMonitorService starts in
(constructor: monitorTimeout = null, isRunning = false). -/
def initialState : ServiceState := { isRunning := false, monitorTimeout := none }

/-- Result of one runAndScheduleNext cycle: the service state when the
cycle returns, the interval the new timer was armed with (none when no
timer was armed), and whether the pass logged an enumeration error. -/
structure CycleResult where
  state : ServiceState
  armedInterval : Option Int
  errorLogged : Bool
deriving Repr, DecidableEq

/-- runAndScheduleNext().  The source calls redis.getAllClaudeAccounts
twice (once in updateAllAccountsUsage, once in calculateNextInterval),
hence the two enum oracles.  Both callees catch their own errors, so
control always reaches the isRunning check, which arms the timer with
the computed interval exactly when the service is still running. -/
def runAndScheduleNext (now : Int) (fetch : Account → FetchResult)
    (probe : Account → Bool) (enumPass enumPlan : Except String (List Account))
    (snap : Nat → Option UsageData) (s : ServiceState) : CycleResult :=
  let pass := updateAllAccountsUsage now fetch probe enumPass
  let nextInterval := calculateNextInterval now snap enumPlan
  if s.isRunning then
    { state := { isRunning := s.isRunning, monitorTimeout := some () },
      armedInterval := some nextInterval,
      errorLogged := pass.errorLogged }
  else
    { state := { isRunning := s.isRunning, monitorTimeout := none },
      armedInterval := none,
      errorLogged := pass.errorLogged }

/-- Lifecycle events the service reacts to: a start() call, a stop()
call, and the armed timer firing (which consumes the timer and runs one
full cycle; runAndScheduleNext re-arms exactly when isRunning still
holds, as proved about runAndScheduleNext below). -/
inductive SvcEvent
  | start
  | stop
  | timerFire
deriving Repr, DecidableEq

/-- The lifecycle step function.  The returned Bool is true when the
call was a no-op that only logged a warning (start while running / stop
while stopped). -/
def svcStep (s : ServiceState) : SvcEvent → ServiceState × Bool
  | .start =>
    if s.isRunning then (s, true)
    else ({ isRunning := true, monitorTimeout := some () }, false)
  | .stop =>
    if s.isRunning then ({ isRunning := false, monitorTimeout := none }, false)
    else (s, true)
  | .timerFire =>
    ({ isRunning := s.isRunning,
       monitorTimeout := if s.isRunning then some () else none }, false)

/-- The timer invariant of the claim: no timer is armed unless the
service is running (and Option Unit can hold at most one timer). -/
def TimerInv (s : ServiceState) : Prop :=
  s.isRunning = false → s.monitorTimeout = none

/-- A concrete account used to exercise the planner theorems on a
closed input. -/
def planAccount : Account :=
  { id := 1, name := "w1", isActive := "true", scopes := "" }

/-- A concrete snapshot store: the 5h window resets at t = 60000 ms and
the 7d window is unknown. -/
def planSnap : Nat → Option UsageData := fun _ =>
  some { five_hour := some { resets_at := some 60000, utilization := none },
         seven_day := none }

/-- The ids of the account items of an update-pass trace, in processing
order; every enumerated account appearing here means the loop reached it. -/
def traceAccountIds : List TraceItem → List Nat
  | [] => []
  | .account i _ :: rest => i :: traceAccountIds rest
  | .delay _ :: rest => traceAccountIds rest

/-- Whether an account outcome means the account was actually fetched
(reached the code past the two continue statements). -/
def processedOutcome : AccountOutcome → Bool
  | .success => true
  | .failed => true
  | .skippedInactive => false
  | .skippedNotOAuth => false

/-- Every fetched account item is immediately followed by the 1-second
delay item. -/
def delaysOk : List TraceItem → Bool
  | [] => true
  | .delay _ :: rest => delaysOk rest
  | .account _ o :: rest =>
    if processedOutcome o then
      match rest with
      | .delay 1000 :: _ => delaysOk rest
      | _ => false
    else delaysOk rest

/-- No two account items are adjacent, i.e. some delay elapses between
any two consecutively handled accounts; this is what the claim that a
delay follows every account, skipped or not, would imply. -/
def noAdjacentAccounts : List TraceItem → Bool
  | .account _ _ :: .account _ _ :: _ => false
  | _ :: rest => noAdjacentAccounts rest
  | [] => true

/-- An account the pass does not skip: active and OAuth. -/
def eligibleB (a : Account) : Bool :=
  decide (a.isActive = "true") && isOAuthAccount a

/-- An eligible account whose fetch returned usage data. -/
def fetchOkB (fetch : Account → FetchResult) (a : Account) : Bool :=
  eligibleB a &&
    (match fetch a with
     | .ok _ => true
     | .nullData => false
     | .err => false)

/-- An eligible account whose fetch threw or returned null. -/
def fetchFailB (fetch : Account → FetchResult) (a : Account) : Bool :=
  eligibleB a &&
    (match fetch a with
     | .ok _ => false
     | .nullData => true
     | .err => true)

/-- An eligible account whose fetched 5h window led to a successful
window initialization. -/
def passInitB (now : Int) (fetch : Account → FetchResult)
    (probe : Account → Bool) (a : Account) : Bool :=
  eligibleB a &&
    (match fetch a with
     | .ok d =>
       (match d.five_hour with
        | some w => (checkAndResetFiveHourWindow now (probe a) w).result
        | none => false)
     | .nullData => false
     | .err => false)

/-- Whether the probe's re-fetched usage has an activated 5h window
(resets_at populated). -/
def refetchActivated (env : ProbeEnv) : Bool :=
  match env.refetch with
  | some u =>
    (match u.five_hour with
     | some w => w.resets_at.isSome
     | none => false)
  | none => false

/-- Three eligible OAuth accounts for the concrete update-pass scenario. -/
def demoAccounts : List Account :=
  [{ id := 1, name := "a1", isActive := "true",
     scopes := "user:profile user:inference" },
   { id := 2, name := "a2", isActive := "true",
     scopes := "user:profile user:inference" },
   { id := 3, name := "a3", isActive := "true",
     scopes := "user:profile user:inference" }]

/-- A fetch oracle that throws for account 2 only and otherwise returns
usage data with no 5h window. -/
def demoFetch : Account → FetchResult := fun a =>
  if a.id = 2 then .err else .ok { five_hour := none, seven_day := none }

/-- An inactive account followed by an eligible one: the continue
statement skips the inter-account delay for the first. -/
def cexAccounts : List Account :=
  [{ id := 1, name := "a1", isActive := "false",
     scopes := "user:profile user:inference" },
   { id := 2, name := "a2", isActive := "true",
     scopes := "user:profile user:inference" }]

/-- A probe environment with a token, a 200 response with parseable
body, and a re-fetch showing the 5h window activated. -/
def probeDemoEnv : ProbeEnv :=
  { accessToken := some "tok",
    response := .ok (200, "body"),
    bodyParses := true,
    refetch := some { five_hour := some { resets_at := some 5, utilization := some 0 },
                      seven_day := none } }

/-- Membership in the candidates of a single optional window. -/
lemma mem_windowCandidates (now : Int) (name wt : String)
    (w? : Option UsageWindow) (e : ScheduleEntry) :
    e ∈ windowCandidates now name wt w? ↔
      ∃ w, w? = some w ∧ ∃ r, w.resets_at = some r ∧
        r + AFTER_RESET_MINUTES * 60 * 1000 > now ∧
        e = ⟨name, r + AFTER_RESET_MINUTES * 60 * 1000, wt⟩ := by
  cases w? with
  | none => simp [windowCandidates]
  | some w =>
    cases hr : w.resets_at with
    | none => simp [windowCandidates, hr]
    | some r =>
      by_cases h : r + AFTER_RESET_MINUTES * 60 * 1000 > now
      · simp only [windowCandidates, hr, if_pos h, List.mem_singleton,
          Option.some.injEq]
        constructor
        · rintro rfl
          exact ⟨w, rfl, r, hr, h, rfl⟩
        · rintro ⟨w', hw', r', hr', _, rfl⟩
          obtain rfl := hw'
          rw [hr] at hr'
          obtain rfl := Option.some.injEq _ _ ▸ hr'
          rfl
      · simp only [windowCandidates, hr, if_neg h, List.not_mem_nil,
          false_iff]
        rintro ⟨w', hw', r', hr', h', rfl⟩
        obtain rfl := Option.some.injEq _ _ ▸ hw'
        rw [hr] at hr'
        obtain rfl := Option.some.injEq _ _ ▸ hr'
        exact h h'

/-- Membership in the candidates contributed by one account. -/
lemma mem_accountCandidates (now : Int) (snap : Nat → Option UsageData)
    (a : Account) (e : ScheduleEntry) :
    e ∈ accountCandidates now snap a ↔
      a.isActive = "true" ∧ ∃ s, snap a.id = some s ∧
        (e ∈ windowCandidates now a.name "5h" s.five_hour ∨
         e ∈ windowCandidates now a.name "7d" s.seven_day) := by
  unfold accountCandidates
  by_cases h : a.isActive = "true"
  · cases hs : snap a.id with
    | none => simp [h, hs]
    | some s => simp [h, hs, List.mem_append]
  · simp [h]

/-- Membership in the full resetTimes list. -/
lemma mem_collectResetTimes (now : Int) (snap : Nat → Option UsageData)
    (accounts : List Account) (e : ScheduleEntry) :
    e ∈ collectResetTimes now snap accounts ↔
      ∃ a, a ∈ accounts ∧ e ∈ accountCandidates now snap a := by
  induction accounts with
  | nil => simp [collectResetTimes]
  | cons a rest ih =>
    simp only [collectResetTimes, List.mem_append, ih, List.mem_cons]
    constructor
    · rintro (h | ⟨a', ha', he'⟩)
      · exact ⟨a, Or.inl rfl, h⟩
      · exact ⟨a', Or.inr ha', he'⟩
    · rintro ⟨a', (rfl | ha'), he'⟩
      · exact Or.inl he'
      · exact Or.inr ⟨a', ha', he'⟩

/-- The fold that models sort-then-take-first returns a member of the
candidate list. -/
lemma minByResetTime_mem (e : ScheduleEntry) (es : List ScheduleEntry) :
    minByResetTime e es ∈ e :: es := by
  induction es generalizing e with
  | nil => simp [minByResetTime]
  | cons x xs ih =>
    have h := ih (if x.resetTime < e.resetTime then x else e)
    unfold minByResetTime at h ⊢
    simp only [List.foldl_cons]
    rcases List.mem_cons.mp h with h1 | h1
    · rw [h1]
      split
      · exact List.mem_cons_of_mem _ (List.mem_cons_self _ _)
      · exact List.mem_cons_self _ _
    · exact List.mem_cons_of_mem _ (List.mem_cons_of_mem _ h1)

/-- The fold that models sort-then-take-first attains the minimum
resetTime of the candidate list. -/
lemma minByResetTime_le (e : ScheduleEntry) (es : List ScheduleEntry) :
    ∀ x ∈ e :: es, (minByResetTime e es).resetTime ≤ x.resetTime := by
  induction es generalizing e with
  | nil =>
    intro x hx
    rcases List.mem_cons.mp hx with rfl | h1
    · exact le_rfl
    · exact absurd h1 (List.not_mem_nil x)
  | cons y ys ih =>
    intro x hx
    have hstep : minByResetTime e (y :: ys)
        = minByResetTime (if y.resetTime < e.resetTime then y else e) ys := by
      unfold minByResetTime
      simp [List.foldl_cons]
    have hle := ih (if y.resetTime < e.resetTime then y else e)
    have hite_le_e :
        (if y.resetTime < e.resetTime then y else e).resetTime ≤ e.resetTime := by
      split
      · exact le_of_lt (by assumption)
      · exact le_rfl
    have hite_le_y :
        (if y.resetTime < e.resetTime then y else e).resetTime ≤ y.resetTime := by
      split
      · exact le_rfl
      · exact not_lt.mp (by assumption)
    rw [hstep]
    rcases List.mem_cons.mp hx with rfl | hx1
    · exact le_trans (hle _ (List.mem_cons_self _ _)) hite_le_e
    · rcases List.mem_cons.mp hx1 with rfl | hx2
      · exact le_trans (hle _ (List.mem_cons_self _ _)) hite_le_y
      · exact hle _ (List.mem_cons_of_mem _ hx2)

/-- C1: calculateNextInterval follows the planner algorithm.  The
candidate list holds exactly the entries triggerTime = resets_at + 5
minutes, triggerTime > now, over every active account's persisted
windows with a known resets_at; an empty candidate list yields
BASE_INTERVAL; otherwise the entry with minimum triggerTime is
selected (so of two future candidates T1 < T2 the one from T1 wins)
and the result is max(triggerTime - now, 1 minute) when that
difference is below BASE_INTERVAL, else BASE_INTERVAL. -/
theorem calculateNextInterval_planner_correct
    (now : Int) (snap : Nat → Option UsageData) (accounts : List Account) :
    (∀ e, e ∈ collectResetTimes now snap accounts ↔
        ∃ a, a ∈ accounts ∧ a.isActive = "true" ∧
          ∃ s, snap a.id = some s ∧
            ((∃ w, s.five_hour = some w ∧ ∃ r, w.resets_at = some r ∧
                r + AFTER_RESET_MINUTES * 60 * 1000 > now ∧
                e = ⟨a.name, r + AFTER_RESET_MINUTES * 60 * 1000, "5h"⟩) ∨
             (∃ w, s.seven_day = some w ∧ ∃ r, w.resets_at = some r ∧
                r + AFTER_RESET_MINUTES * 60 * 1000 > now ∧
                e = ⟨a.name, r + AFTER_RESET_MINUTES * 60 * 1000, "7d"⟩))) ∧
    (collectResetTimes now snap accounts = [] →
        calculateNextInterval now snap (.ok accounts) = BASE_INTERVAL) ∧
    (∀ e es, collectResetTimes now snap accounts = e :: es →
        minByResetTime e es ∈ e :: es ∧
        (∀ x ∈ e :: es, (minByResetTime e es).resetTime ≤ x.resetTime) ∧
        calculateNextInterval now snap (.ok accounts) =
          (if (minByResetTime e es).resetTime - now < BASE_INTERVAL
           then max ((minByResetTime e es).resetTime - now) 60000
           else BASE_INTERVAL)) := by
  refine ⟨?_, ?_, ?_⟩
  · intro e
    rw [mem_collectResetTimes]
    constructor
    · rintro ⟨a, ha, he⟩
      rw [mem_accountCandidates] at he
      obtain ⟨hact, s, hs, hw⟩ := he
      refine ⟨a, ha, hact, s, hs, ?_⟩
      rcases hw with h5 | h7
      · exact Or.inl ((mem_windowCandidates now a.name "5h" s.five_hour e).mp h5)
      · exact Or.inr ((mem_windowCandidates now a.name "7d" s.seven_day e).mp h7)
    · rintro ⟨a, ha, hact, s, hs, hw⟩
      refine ⟨a, ha, (mem_accountCandidates now snap a e).mpr ⟨hact, s, hs, ?_⟩⟩
      rcases hw with h5 | h7
      · exact Or.inl ((mem_windowCandidates now a.name "5h" s.five_hour e).mpr h5)
      · exact Or.inr ((mem_windowCandidates now a.name "7d" s.seven_day e).mpr h7)
  · intro h
    simp [calculateNextInterval, h]
  · intro e es h
    refine ⟨minByResetTime_mem e es, minByResetTime_le e es, ?_⟩
    simp [calculateNextInterval, h]

/-- C1 witness: on a single active account whose 5h window resets at
t = 60000 ms, with now = 0, the planner returns 360000 ms (6 minutes),
i.e. max(triggerTime - now, 1 minute) for triggerTime = 360000. -/
theorem calculateNextInterval_planner_correct_witness :
    calculateNextInterval 0 planSnap (.ok [planAccount]) = 360000 := by
  have h := calculateNextInterval_planner_correct 0 planSnap [planAccount]
  have h3 := h.2.2 ⟨"w1", 360000, "5h"⟩ [] (by rfl)
  rw [h3.2.2]
  decide

/-- C3: on a 5h window whose resets_at is absent, the check attempts
exactly one probe, returns exactly the probe's boolean result, and
emits no remaining-time log line. -/
theorem checkWindow_dormant_probes_once
    (now : Int) (probeResult : Bool) (w : UsageWindow)
    (h : w.resets_at = none) :
    checkAndResetFiveHourWindow now probeResult w
      = ⟨probeResult, 1, none⟩ := by
  unfold checkAndResetFiveHourWindow
  rw [h]

/-- C3 witness: a dormant window with a succeeding probe yields result
true, one probe attempt, no remaining-time log. -/
theorem checkWindow_dormant_probes_once_witness :
    checkAndResetFiveHourWindow 0 true ⟨none, none⟩ = ⟨true, 1, none⟩ :=
  checkWindow_dormant_probes_once 0 true ⟨none, none⟩ rfl

/-- C4: with resets_at present and remaining minutes (floored) at most
the 10-minute threshold, the check logs the impending reset with the
remaining minutes and the rounded remaining-quota percent
100 * (1 - utilization), attempts no probe, and returns false; in the
concrete scenario (utilization 0.8, reset 6 minutes out) the logged
quota is 20 percent. -/
theorem checkWindow_impending_reset_logs
    (now r : Int) (probeResult : Bool) (w : UsageWindow)
    (hr : w.resets_at = some r)
    (hrem : Int.fdiv (r - now) 60000 ≤ RESET_THRESHOLD_MINUTES) :
    checkAndResetFiveHourWindow now probeResult w
        = ⟨false, 0, some (Int.fdiv (r - now) 60000,
            jsRound ((1 - w.utilization.getD 0) * 100))⟩ ∧
    checkAndResetFiveHourWindow 0 probeResult ⟨some 360000, some (4/5)⟩
        = ⟨false, 0, some (6, 20)⟩ := by
  constructor
  · unfold checkAndResetFiveHourWindow
    rw [hr]
    simp [hrem]
  · have hf : Int.fdiv ((360000 : Int) - 0) 60000 = 6 := by decide
    have hq : jsRound ((1 - (4/5 : Rat)) * 100) = 20 := by
      unfold jsRound
      rw [ratFloor_eq_floor]
      norm_num
    simp [checkAndResetFiveHourWindow, hf, hq, RESET_THRESHOLD_MINUTES]

/-- C4 witness: the concrete scenario, with both hypotheses discharged
at resets_at = 360000 ms and now = 0. -/
theorem checkWindow_impending_reset_logs_witness :
    checkAndResetFiveHourWindow 0 false ⟨some 360000, some (4/5)⟩
      = ⟨false, 0, some (6, 20)⟩ :=
  (checkWindow_impending_reset_logs 0 360000 false ⟨some 360000, some (4/5)⟩
    rfl (by decide)).2

/-- C10: a probe is attempted iff the 5h window's resets_at is absent;
with resets_at present the check attempts no probe and returns false,
and when the reset time already lies in the past the (negative)
remaining minutes always meet the threshold, so the impending-reset
log line is still emitted. -/
theorem checkWindow_probe_iff_dormant
    (now : Int) (probeResult : Bool) (w : UsageWindow) :
    ((checkAndResetFiveHourWindow now probeResult w).probeAttempts = 1
        ↔ w.resets_at = none) ∧
    (∀ r, w.resets_at = some r →
        (checkAndResetFiveHourWindow now probeResult w).probeAttempts = 0 ∧
        (checkAndResetFiveHourWindow now probeResult w).result = false ∧
        (r < now →
          (checkAndResetFiveHourWindow now probeResult w).remainingLog
            = some (Int.fdiv (r - now) 60000,
                jsRound ((1 - w.utilization.getD 0) * 100)))) := by
  obtain ⟨ra, u⟩ := w
  cases ra with
  | none =>
    refine ⟨by simp [checkAndResetFiveHourWindow], ?_⟩
    intro r hr'
    simp at hr'
  | some r0 =>
    constructor
    · constructor
      · intro h1
        by_cases hc : Int.fdiv (r0 - now) 60000 ≤ RESET_THRESHOLD_MINUTES <;>
          simp [checkAndResetFiveHourWindow, hc] at h1
      · intro h1
        simp at h1
    · intro r hr'
      simp only [Option.some.injEq] at hr'
      subst hr'
      refine ⟨?_, ?_, ?_⟩
      · by_cases hc : Int.fdiv (r0 - now) 60000 ≤ RESET_THRESHOLD_MINUTES <;>
          simp [checkAndResetFiveHourWindow, hc]
      · by_cases hc : Int.fdiv (r0 - now) 60000 ≤ RESET_THRESHOLD_MINUTES <;>
          simp [checkAndResetFiveHourWindow, hc]
      · intro hpast
        have hlt : Int.fdiv (r0 - now) 60000 < 0 := by
          rw [Int.fdiv_eq_ediv _ (by omega : (0:Int) ≤ 60000)]
          exact Int.ediv_neg' (by omega) (by omega)
        have hc : Int.fdiv (r0 - now) 60000 ≤ RESET_THRESHOLD_MINUTES := by
          unfold RESET_THRESHOLD_MINUTES
          omega
        simp [checkAndResetFiveHourWindow, hc]

/-- C10 witness: a window whose reset time passed one minute ago
attempts no probe, returns false, and still logs (remaining -1 minute,
quota 100 percent for an absent utilization). -/
theorem checkWindow_probe_iff_dormant_witness :
    (checkAndResetFiveHourWindow 0 false ⟨some (-60000), none⟩).probeAttempts = 0 ∧
    (checkAndResetFiveHourWindow 0 false ⟨some (-60000), none⟩).result = false ∧
    (checkAndResetFiveHourWindow 0 false ⟨some (-60000), none⟩).remainingLog
      = some (-1, 100) := by
  have h := (checkWindow_probe_iff_dormant 0 false ⟨some (-60000), none⟩).2
      (-60000) rfl
  refine ⟨h.1, h.2.1, ?_⟩
  rw [h.2.2 (by decide)]
  have hq : jsRound ((1 - ((⟨some (-60000), none⟩ : UsageWindow).utilization.getD 0)) * 100)
      = 100 := by
    unfold jsRound
    rw [ratFloor_eq_floor]
    norm_num
  rw [hq]
  decide

/-- The counter effect of one loop iteration, expressed with the
per-account classification predicates. -/
lemma stepAccount_counts (now : Int) (fetch : Account → FetchResult)
    (probe : Account → Bool) (c : Counts) (a : Account) :
    (stepAccount now fetch probe c a).1 =
      ⟨c.successCount + (if fetchOkB fetch a then 1 else 0),
       c.skipCount + (if eligibleB a then 0 else 1),
       c.initCount + (if passInitB now fetch probe a then 1 else 0),
       c.failureCount + (if fetchFailB fetch a then 1 else 0)⟩ := by
  by_cases h1 : a.isActive = "true" <;> by_cases h2 : isOAuthAccount a <;>
    cases hf : fetch a <;>
      simp [stepAccount, eligibleB, fetchOkB, fetchFailB, passInitB, h1, h2, hf]

/-- The loop's final counters are the initial counters plus the counts
of the per-account classification predicates. -/
lemma runPassLoop_counts (now : Int) (fetch : Account → FetchResult)
    (probe : Account → Bool) (accounts : List Account) (c : Counts) :
    (runPassLoop now fetch probe accounts c).1 =
      ⟨c.successCount + accounts.countP (fetchOkB fetch),
       c.skipCount + accounts.countP (fun a => ! eligibleB a),
       c.initCount + accounts.countP (passInitB now fetch probe),
       c.failureCount + accounts.countP (fetchFailB fetch)⟩ := by
  induction accounts generalizing c with
  | nil => simp [runPassLoop]
  | cons a rest ih =>
    simp only [runPassLoop]
    rw [ih, stepAccount_counts]
    simp only [List.countP_cons, Counts.mk.injEq]
    refine ⟨?_, ?_, ?_, ?_⟩
    · cases hb : fetchOkB fetch a
      · simp [hb]
      · simp [hb]
        omega
    · cases hb : eligibleB a
      · simp [hb]
        omega
      · simp [hb]
    · cases hb : passInitB now fetch probe a
      · simp [hb]
      · simp [hb]
        omega
    · cases hb : fetchFailB fetch a
      · simp [hb]
      · simp [hb]
        omega

/-- traceAccountIds distributes over trace concatenation. -/
lemma traceAccountIds_append (xs ys : List TraceItem) :
    traceAccountIds (xs ++ ys) = traceAccountIds xs ++ traceAccountIds ys := by
  induction xs with
  | nil => rfl
  | cons x xs ih => cases x <;> simp [traceAccountIds, ih]

/-- Every enumerated account produces exactly one account item, in
order: the loop is never aborted early. -/
lemma runPassLoop_trace_ids (now : Int) (fetch : Account → FetchResult)
    (probe : Account → Bool) (accounts : List Account) (c : Counts) :
    traceAccountIds (runPassLoop now fetch probe accounts c).2
      = accounts.map (fun a => a.id) := by
  induction accounts generalizing c with
  | nil => simp [runPassLoop, traceAccountIds]
  | cons a rest ih =>
    simp only [runPassLoop, List.map_cons]
    rw [traceAccountIds_append, ih]
    have hstep : traceAccountIds (stepAccount now fetch probe c a).2 = [a.id] := by
      by_cases h1 : a.isActive = "true" <;> by_cases h2 : isOAuthAccount a <;>
        cases hf : fetch a <;> simp [stepAccount, h1, h2, hf, traceAccountIds]
    rw [hstep]
    rfl

/-- Every fetched account item in the loop trace is immediately
followed by the 1-second delay item. -/
lemma runPassLoop_delaysOk (now : Int) (fetch : Account → FetchResult)
    (probe : Account → Bool) (accounts : List Account) (c : Counts) :
    delaysOk (runPassLoop now fetch probe accounts c).2 = true := by
  induction accounts generalizing c with
  | nil => rfl
  | cons a rest ih =>
    simp only [runPassLoop]
    by_cases h1 : a.isActive = "true" <;> by_cases h2 : isOAuthAccount a <;>
      cases hf : fetch a <;>
        simp [stepAccount, h1, h2, hf, delaysOk, processedOutcome, ih]

/-- C2: a fetch failure for one account (exception or null result) only
increments the failed counter and the pass goes on: the failed counter
counts exactly the eligible accounts whose fetch failed, the success
counter exactly the eligible accounts whose fetch returned data, and
the trace still contains every enumerated account in order; in the
concrete three-eligible-account scenario where only account 2's fetch
throws, the logged counters are success 2, skipped 0, failed 1. -/
theorem updatePass_fetch_failure_isolated (now : Int)
    (fetch : Account → FetchResult) (probe : Account → Bool)
    (accounts : List Account) :
    ((runPassLoop now fetch probe accounts ⟨0, 0, 0, 0⟩).1.failureCount
        = accounts.countP (fetchFailB fetch)) ∧
    ((runPassLoop now fetch probe accounts ⟨0, 0, 0, 0⟩).1.successCount
        = accounts.countP (fetchOkB fetch)) ∧
    (traceAccountIds (runPassLoop now fetch probe accounts ⟨0, 0, 0, 0⟩).2
        = accounts.map (fun a => a.id)) ∧
    ((updateAllAccountsUsage 0 demoFetch (fun _ => false)
        (.ok demoAccounts)).completionLog
        = some ⟨2, 0, 0, 1, 3⟩) := by
  refine ⟨?_, ?_, runPassLoop_trace_ids now fetch probe accounts _, ?_⟩
  · rw [runPassLoop_counts]
    simp
  · rw [runPassLoop_counts]
    simp
  · decide

/-- C7 counterexample: with an inactive account followed by an eligible
one, the continue statement skips the inter-account delay, so two
account items are adjacent in the trace with no delay between them —
refuting the claim that a 1-second delay follows every account
regardless of outcome. -/
theorem updatePass_delay_skipped_counterexample :
    noAdjacentAccounts
      (updateAllAccountsUsage 0 (fun _ => .ok ⟨none, none⟩) (fun _ => false)
        (.ok cexAccounts)).trace = false := by
  decide

/-- C7 (amended): after every account that was actually fetched
(success or failure) the fixed 1-second delay elapses before the next
account is handled; accounts skipped as ineligible proceed immediately
without a delay. -/
theorem updatePass_delay_after_fetched (now : Int)
    (fetch : Account → FetchResult) (probe : Account → Bool)
    (enum : Except String (List Account)) :
    delaysOk (updateAllAccountsUsage now fetch probe enum).trace = true := by
  cases enum with
  | error e => rfl
  | ok accounts =>
    simp only [updateAllAccountsUsage]
    exact runPassLoop_delaysOk now fetch probe accounts _

/-- C8 counterexample: updateAllAccountsUsage resolves to undefined —
it returns no aggregate-counts record to its caller (here evaluated on
the concrete three-account scenario, whose counters it only logs). -/
theorem updatePass_returns_no_record :
    (updateAllAccountsUsage 0 demoFetch (fun _ => false)
        (.ok demoAccounts)).ret = none ∧
    ∀ rec : AggregateCounts,
      (updateAllAccountsUsage 0 demoFetch (fun _ => false)
          (.ok demoAccounts)).ret ≠ some rec := by
  refine ⟨rfl, ?_⟩
  intro rec h
  simp [updateAllAccountsUsage] at h

/-- C8 (amended): the update pass computes the aggregate counts
success / skipped / initialized / failed / total — equal to the number
of eligible accounts successfully refreshed, the accounts skipped as
ineligible, the probe-initialized accounts, the failed fetches, and
the number of enumerated accounts — but only reports them in its
completion log line; the function itself returns no value. -/
theorem updatePass_logs_aggregate_counts (now : Int)
    (fetch : Account → FetchResult) (probe : Account → Bool)
    (accounts : List Account) :
    (updateAllAccountsUsage now fetch probe (.ok accounts)).ret = none ∧
    (updateAllAccountsUsage now fetch probe (.ok accounts)).completionLog
      = some ⟨accounts.countP (fetchOkB fetch),
              accounts.countP (fun a => ! eligibleB a),
              accounts.countP (passInitB now fetch probe),
              accounts.countP (fetchFailB fetch),
              accounts.length⟩ := by
  refine ⟨rfl, ?_⟩
  simp only [updateAllAccountsUsage]
  rw [runPassLoop_counts]
  simp

/-- C5: the probe contract.  (1) no valid access token: return false
with no network call; (2) HTTP 200 (body parsing): 2-second settle
delay, usage re-fetch, success exactly when the re-fetched 5h window
has resets_at populated, persisting the refreshed snapshot then;
(3) non-200 status: log the body truncated to 200 characters, return
false; a thrown request (or a body that fails to parse) is caught,
logged and returns false. -/
theorem probe_contract (env : ProbeEnv) :
    (env.accessToken = none →
        triggerFiveHourInitialization env = ⟨false, []⟩) ∧
    (∀ tok body, env.accessToken = some tok →
        env.response = .ok (200, body) → env.bodyParses = true →
        (triggerFiveHourInitialization env =
          ⟨refetchActivated env,
           [.networkRequest, .settleDelay 2000, .refetchUsage]
             ++ (if refetchActivated env then [.persistSnapshot] else [])⟩) ∧
        (refetchActivated env = true ↔
          ∃ u w r, env.refetch = some u ∧ u.five_hour = some w ∧
            w.resets_at = some r)) ∧
    (∀ tok sc body, env.accessToken = some tok →
        env.response = .ok (sc, body) → sc ≠ 200 →
        triggerFiveHourInitialization env
          = ⟨false, [.networkRequest, .logTruncatedBody (body.take 200)]⟩) ∧
    (∀ tok msg, env.accessToken = some tok → env.response = .error msg →
        triggerFiveHourInitialization env
          = ⟨false, [.networkRequest, .logCaughtError]⟩) ∧
    (∀ tok body, env.accessToken = some tok →
        env.response = .ok (200, body) → env.bodyParses = false →
        triggerFiveHourInitialization env
          = ⟨false, [.networkRequest, .logCaughtError]⟩) := by
  obtain ⟨tk, resp, bp, rf⟩ := env
  refine ⟨?_, ?_, ?_, ?_, ?_⟩
  · intro h
    subst h
    rfl
  · intro tok body htk hresp hbp
    simp only at htk hresp hbp
    subst htk
    subst hresp
    subst hbp
    constructor
    · rcases rf with _ | ⟨fh, sd⟩
      · rfl
      · rcases fh with _ | ⟨wra, wu⟩
        · rfl
        · cases wra <;> rfl
    · rcases rf with _ | ⟨fh, sd⟩
      · simp [refetchActivated]
      · rcases fh with _ | ⟨wra, wu⟩
        · simp [refetchActivated]
        · cases wra <;> simp [refetchActivated]
  · intro tok sc body htk hresp hsc
    simp only at htk hresp
    subst htk
    subst hresp
    simp [triggerFiveHourInitialization, hsc]
  · intro tok msg htk hresp
    simp only at htk hresp
    subst htk
    subst hresp
    rfl
  · intro tok body htk hresp hbp
    simp only at htk hresp hbp
    subst htk
    subst hresp
    subst hbp
    rfl

/-- C5 witness: with a token, a parseable 200 response, and a re-fetch
showing resets_at populated, the probe returns true after the request,
settle delay, re-fetch and snapshot persistence. -/
theorem probe_contract_witness :
    triggerFiveHourInitialization probeDemoEnv
      = ⟨true, [.networkRequest, .settleDelay 2000, .refetchUsage,
                .persistSnapshot]⟩ := by
  have h := ((probe_contract probeDemoEnv).2.1 "tok" "body" rfl rfl rfl).1
  rw [h]
  rfl

/-- C6: lifecycle and timer invariant.  The fresh service satisfies the
invariant (no timer armed while stopped, at most one timer slot at
all); every lifecycle event preserves it; start while running and stop
while stopped are warning-logged no-ops; and a second consecutive stop
is a no-op that leaves no armed timer. -/
theorem service_lifecycle_timer_invariant :
    TimerInv initialState ∧
    (∀ s e, TimerInv s → TimerInv (svcStep s e).1) ∧
    (∀ s, s.isRunning = true → svcStep s .start = (s, true)) ∧
    (∀ s, s.isRunning = false → svcStep s .stop = (s, true)) ∧
    (∀ s, TimerInv s →
        svcStep (svcStep s .stop).1 .stop = ((svcStep s .stop).1, true) ∧
        (svcStep s .stop).1.monitorTimeout = none) := by
  refine ⟨?_, ?_, ?_, ?_, ?_⟩
  · intro h
    rfl
  · intro s e hs
    obtain ⟨run, tm⟩ := s
    cases e <;> cases run <;> simp_all [svcStep, TimerInv]
  · intro s h
    simp [svcStep, h]
  · intro s h
    simp [svcStep, h]
  · intro s hs
    obtain ⟨run, tm⟩ := s
    cases run
    · have htm : tm = none := hs rfl
      subst htm
      exact ⟨rfl, rfl⟩
    · exact ⟨rfl, rfl⟩

/-- C6 witness: from a running state with an armed timer, stop twice:
the second stop is a warning no-op and no timer remains armed. -/
theorem service_lifecycle_timer_invariant_witness :
    svcStep (svcStep ⟨true, some ()⟩ .stop).1 .stop
        = ((svcStep ⟨true, some ()⟩ .stop).1, true) ∧
    (svcStep ⟨true, some ()⟩ .stop).1.monitorTimeout = none :=
  service_lifecycle_timer_invariant.2.2.2.2 ⟨true, some ()⟩ (fun h => nomatch h)

/-- C9: if the account enumeration fails, the update pass logs the
error, the planner falls back to BASE_INTERVAL, and — whenever the
cycle ends with isRunning = true — a next timer is armed (here with
exactly BASE_INTERVAL); in general a cycle ending while running always
arms a timer, and a cycle ending while stopped leaves none armed. -/
theorem cycle_failsafe_rearm (now : Int) (fetch : Account → FetchResult)
    (probe : Account → Bool) (enumPass enumPlan : Except String (List Account))
    (snap : Nat → Option UsageData) (s : ServiceState) :
    (∀ msg, enumPass = .error msg →
        (runAndScheduleNext now fetch probe enumPass enumPlan snap s).errorLogged
          = true) ∧
    (∀ m1 m2, enumPass = .error m1 → enumPlan = .error m2 →
        s.isRunning = true →
        (runAndScheduleNext now fetch probe enumPass enumPlan snap s).armedInterval
          = some BASE_INTERVAL) ∧
    (s.isRunning = true →
        ((runAndScheduleNext now fetch probe enumPass enumPlan snap s).armedInterval).isSome
            = true ∧
        (runAndScheduleNext now fetch probe enumPass enumPlan snap s).state.monitorTimeout
            = some ()) ∧
    (s.isRunning = false →
        (runAndScheduleNext now fetch probe enumPass enumPlan snap s).state.monitorTimeout
          = none) := by
  refine ⟨?_, ?_, ?_, ?_⟩
  · intro msg h
    subst h
    cases hs : s.isRunning <;>
      simp [runAndScheduleNext, hs, updateAllAccountsUsage]
  · intro m1 m2 h1 h2 hs
    subst h1
    subst h2
    simp [runAndScheduleNext, hs, calculateNextInterval]
  · intro hs
    simp [runAndScheduleNext, hs]
  · intro hs
    simp [runAndScheduleNext, hs]

/-- C9 witness: both enumeration calls fail while the service is
running; the cycle arms the next timer with BASE_INTERVAL. -/
theorem cycle_failsafe_rearm_witness :
    (runAndScheduleNext 0 (fun _ => .err) (fun _ => false)
        (.error "boom") (.error "boom") (fun _ => none)
        ⟨true, none⟩).armedInterval = some BASE_INTERVAL :=
  (cycle_failsafe_rearm 0 (fun _ => .err) (fun _ => false)
      (.error "boom") (.error "boom") (fun _ => none) ⟨true, none⟩).2.1
    "boom" "boom" rfl rfl rfl

end ClaudeUsageMonitor
